import Mathlib

set_option autoImplicit false

/-!
Verification of a page-oriented storage stack (storage manager, buffer pool,
record manager) against its natural-language specification.

The C sources are shallowly embedded:
* machine `int` values become `Int` (no overflow is exercised by the claims);
* byte buffers become total functions `Int → Nat` (byte at an offset);
* the backing file, as seen by a single call, is summarized by an
  environment record (`SMEnv`) that fixes which physical operations
  (open / seek / block read / block write / zero-append) succeed and what
  the on-disk bytes are;
* fallible code returns `RC`-tagged results, exactly as the C does.
-/

namespace CS525

/-- Return codes (dberror.h). -/
inductive RC where
  | RC_OK
  | RC_ERROR
  | RC_INVALID_PARAMETER
  | RC_MEMORY_ALLOCATION_ERROR
  | RC_FILE_NOT_FOUND
  | RC_FILE_HANDLE_NOT_INIT
  | RC_FILE_CLOSE_FAILED
  | RC_READ_NON_EXISTING_PAGE
  | RC_WRITE_FAILED
  | RC_PINNED_PAGES_IN_BUFFER
  | RC_SCAN_CONDITION_NOT_FOUND
  | RC_RM_NO_MORE_TUPLES
  | RC_RM_NO_TUPLE_WITH_GIVEN_RID
  | RC_RM_COMPARE_VALUE_OF_DIFFERENT_DATATYPE
  deriving DecidableEq, Repr

open RC

/-- PAGE_SIZE from dberror.h (default 4096). -/
def PAGE_SIZE : Int := 4096

/-- storage_mgr.c: the in-memory part of `SM_FileHandle` (the `FILE*` and the
file name are summarized by the environment). -/
structure SM_FileHandle where
  totalNumPages : Int
  curPagePos : Int
  deriving DecidableEq, Repr

/-- Environment of one storage-manager call: which physical file operations
succeed, and the on-disk bytes.  `appendOk i` tells whether the i-th zero-page
`fwrite` inside `ensureCapacity`'s extension loop succeeds; `filePages` is the
page count the file has when `openPageFile` measures it. -/
structure SMEnv where
  openOk : Bool
  seekOk : Bool
  readOk : Bool
  blockWriteOk : Bool
  appendOk : Nat → Bool
  filePages : Int
  disk : Int → Int → Nat

/-- storage_mgr.c `ensureCapacity` extension loop: the `need` zero-page
`fwrite`s, performed one by one; the loop stops at the first failure. -/
def ecLoop (env : SMEnv) : Nat → Nat → Bool
  | _, 0 => true
  | i, n + 1 => env.appendOk i && ecLoop env (i + 1) n

/-- storage_mgr.c `ensureCapacity`: append zeroed pages until the file has at
least `numPages` pages; `totalNumPages` (and `curPagePos`) are updated only
after the whole loop has succeeded. -/
def ensureCapacity (env : SMEnv) (numPages : Int) (h : SM_FileHandle) :
    RC × SM_FileHandle :=
  if numPages ≤ 0 then (RC_OK, h)
  else if numPages ≤ h.totalNumPages then (RC_OK, h)
  else if ¬ env.seekOk then (RC_WRITE_FAILED, h)
  else if ecLoop env 0 (numPages - h.totalNumPages).toNat then
    (RC_OK, { totalNumPages := numPages, curPagePos := numPages - 1 })
  else (RC_WRITE_FAILED, h)

/-- storage_mgr.c `validate_read_args` (the null checks are not modelled:
the embedding has no null pointers). -/
def validate_read_args (h : SM_FileHandle) (pageNum : Int) : RC :=
  if pageNum < 0 ∨ h.totalNumPages ≤ pageNum then RC_READ_NON_EXISTING_PAGE
  else RC_OK

/-- storage_mgr.c `readBlock`: bounds check, seek, full-page `fread`; on
success the destination buffer receives the page's on-disk bytes and
`curPagePos` is updated. -/
def readBlock (env : SMEnv) (pageNum : Int) (h : SM_FileHandle)
    (memPage : Int → Nat) : RC × SM_FileHandle × (Int → Nat) :=
  if validate_read_args h pageNum ≠ RC_OK then
    (validate_read_args h pageNum, h, memPage)
  else if ¬ env.seekOk then (RC_READ_NON_EXISTING_PAGE, h, memPage)
  else if ¬ env.readOk then (RC_READ_NON_EXISTING_PAGE, h, memPage)
  else
    (RC_OK, { h with curPagePos := pageNum },
      fun o => if 0 ≤ o ∧ o < PAGE_SIZE then env.disk pageNum o else memPage o)

/-- storage_mgr.c `writeBlock`: bounds check, seek, full-page `fwrite`.
The file-content change is absorbed by the per-call environment. -/
def writeBlock (env : SMEnv) (pageNum : Int) (h : SM_FileHandle) :
    RC × SM_FileHandle :=
  if pageNum < 0 ∨ h.totalNumPages ≤ pageNum then (RC_READ_NON_EXISTING_PAGE, h)
  else if ¬ env.seekOk then (RC_WRITE_FAILED, h)
  else if ¬ env.blockWriteOk then (RC_WRITE_FAILED, h)
  else (RC_OK, { h with curPagePos := pageNum })

/-! ## Buffer manager (buffer_mgr.c) -/

/-- buffer_mgr.h replacement strategies. -/
inductive ReplacementStrategy where
  | RS_FIFO
  | RS_LRU
  | RS_CLOCK
  | RS_LFU
  | RS_LRU_K
  deriving DecidableEq, Repr

/-- buffer_mgr.c `Frame` (the intrusive `next`/`prev` links become the order
of the `frames` list of `BpState`, head first). -/
structure Frame where
  data : Int → Nat
  pageNum : Int
  isDirty : Bool
  pinCount : Int
  refCount : Int
  lastTouch : Int

/-- buffer_mgr.c `BpState` (the linked list is the `frames` list, head
first; `fifoPtr` and `clockIdx` are dead in the source and dropped). -/
structure BpState where
  frames : List Frame
  used : Int
  capacity : Int
  reads : Int
  writes : Int
  tick : Int

/-- buffer_mgr.h `BM_BufferPool`: strategy plus management state (the file
name lives in the per-call `SMEnv`). -/
structure BM_BufferPool where
  strategy : ReplacementStrategy
  st : BpState

/-- The byte written by `snprintf(buf, PAGE_SIZE, "Page-%d", pn)`:
the ASCII bytes of the text. -/
def tagBytes (pn : Int) : List Nat :=
  (("Page-" ++ toString pn).toList.map Char.toNat)

/-- Effect of `snprintf(buf, PAGE_SIZE, "Page-%d", pn)` on a buffer: the text
and its terminating NUL are written, the rest of the buffer is untouched. -/
def snprintfTag (pn : Int) (buf : Int → Nat) : Int → Nat :=
  fun o =>
    if 0 ≤ o ∧ o.toNat < (tagBytes pn).length then (tagBytes pn).getD o.toNat 0
    else if 0 ≤ o ∧ o.toNat = (tagBytes pn).length then 0
    else buf o

/-- buffer_mgr.c `io_read_page`: open, `ensureCapacity(pn + 1)`, `readBlock`.
A `readBlock` failure is absorbed: the buffer receives the text `Page-<pn>`
and the function still returns `RC_OK` and still bumps the read counter.
Returns (rc, buffer contents, new read counter). -/
def io_read_page (env : SMEnv) (pn : Int) (buf : Int → Nat) (reads : Int) :
    RC × (Int → Nat) × Int :=
  if ¬ env.openOk then (RC_FILE_NOT_FOUND, buf, reads)
  else
    let fh : SM_FileHandle := { totalNumPages := env.filePages, curPagePos := 0 }
    let er := ensureCapacity env (pn + 1) fh
    if er.1 ≠ RC_OK then (er.1, buf, reads)
    else
      let rr := readBlock env pn er.2 buf
      let buf2 := if rr.1 ≠ RC_OK then snprintfTag pn buf else rr.2.2
      (RC_OK, buf2, reads + 1)

/-- buffer_mgr.c `io_write_page`: open, `ensureCapacity(pn + 1)`,
`writeBlock`; the write counter is bumped only when everything succeeded.
Returns (rc, new write counter). -/
def io_write_page (env : SMEnv) (pn : Int) (writes : Int) : RC × Int :=
  if ¬ env.openOk then (RC_FILE_NOT_FOUND, writes)
  else
    let fh : SM_FileHandle := { totalNumPages := env.filePages, curPagePos := 0 }
    let er := ensureCapacity env (pn + 1) fh
    let rc := if er.1 = RC_OK then (writeBlock env pn er.2).1 else er.1
    if rc = RC_OK then (RC_OK, writes + 1) else (rc, writes)

/-- buffer_mgr.c `fr_find`, as the index of the first frame (from the head)
holding `pn`. -/
def fr_findIdx : List Frame → Int → Option Nat
  | [], _ => none
  | f :: fs, pn =>
    if f.pageNum = pn then some 0 else (fr_findIdx fs pn).map (· + 1)

/-- The victim search of `pinPage`: walk from the head, take the first frame
with `pinCount ≤ 0` (`while (victim && victim->pinCount > 0)`). -/
def fr_victimIdx : List Frame → Option Nat
  | [] => none
  | f :: fs =>
    if f.pinCount ≤ 0 then some 0 else (fr_victimIdx fs).map (· + 1)

/-- In-place update of the i-th list element. -/
def modifyAt (g : Frame → Frame) : List Frame → Nat → List Frame
  | [], _ => []
  | f :: fs, 0 => g f :: fs
  | f :: fs, n + 1 => f :: modifyAt g fs n

/-- buffer_mgr.c `initBufferPool` (`none` models the `RC_ERROR` rejection of
`numPages <= 0`). -/
def initBufferPool (numPages : Int) (strategy : ReplacementStrategy) :
    Option BM_BufferPool :=
  if numPages ≤ 0 then none
  else some
    { strategy := strategy,
      st := { frames := [], used := 0, capacity := numPages,
              reads := 0, writes := 0, tick := 0 } }

/-- buffer_mgr.c `pinPage`.  Returns (rc, pool, handle buffer).  The three
paths of the source: hit; cold fill while `used < capacity`; replacement of
the first frame (in insertion order) with `pinCount ≤ 0` — the configured
strategy is never consulted.  On the replacement path the victim's buffer is
zeroed before the read, the dirty victim is written back with the result
ignored, and the reused frame's `isDirty` flag is left as the victim had it. -/
def pinPage (env : SMEnv) (bm : BM_BufferPool) (pn : Int) :
    RC × BM_BufferPool × (Int → Nat) :=
  let st := bm.st
  match fr_findIdx st.frames pn with
  | some i =>
    let tick2 := st.tick + 1
    let fs := modifyAt
      (fun f =>
        { f with
          pinCount := f.pinCount + 1
          refCount := f.refCount + 1
          lastTouch := tick2 }) st.frames i
    let d := match st.frames[i]? with
      | some f => f.data
      | none => fun _ => 0
    (RC_OK, { bm with st := { st with frames := fs, tick := tick2 } }, d)
  | none =>
    if st.used < st.capacity then
      let buf0 : Int → Nat := fun _ => 0
      let r := io_read_page env pn buf0 st.reads
      if r.1 ≠ RC_OK then (r.1, bm, buf0)
      else
        let tick2 := st.tick + 1
        let f : Frame :=
          { data := r.2.1
            pageNum := pn
            isDirty := false
            pinCount := 1
            refCount := 1
            lastTouch := tick2 }
        let st2 : BpState :=
          { st with
            frames := st.frames ++ [f]
            used := st.used + 1
            reads := r.2.2
            tick := tick2 }
        (RC_OK, { bm with st := st2 }, r.2.1)
    else
      match fr_victimIdx st.frames with
      | none => (RC_PINNED_PAGES_IN_BUFFER, bm, fun _ => 0)
      | some i =>
        match st.frames[i]? with
        | none => (RC_ERROR, bm, fun _ => 0)
        | some v =>
          let writes2 :=
            if v.isDirty then (io_write_page env v.pageNum st.writes).2
            else st.writes
          let zeroBuf : Int → Nat := fun _ => 0
          let r := io_read_page env pn zeroBuf st.reads
          if r.1 ≠ RC_OK then
            let fs := modifyAt (fun f => { f with data := zeroBuf }) st.frames i
            let st2 : BpState := { st with frames := fs, writes := writes2 }
            (r.1, { bm with st := st2 }, zeroBuf)
          else
            let tick2 := st.tick + 1
            let f2 : Frame :=
              { data := r.2.1
                pageNum := pn
                isDirty := v.isDirty
                pinCount := 1
                refCount := 1
                lastTouch := tick2 }
            let fs := modifyAt (fun _ => f2) st.frames i
            let st2 : BpState :=
              { st with
                frames := fs
                reads := r.2.2
                writes := writes2
                tick := tick2 }
            (RC_OK, { bm with st := st2 }, r.2.1)

/-- buffer_mgr.c `unpinPage` (identified by page number, as in the source). -/
def unpinPage (bm : BM_BufferPool) (pn : Int) : RC × BM_BufferPool :=
  match fr_findIdx bm.st.frames pn with
  | none => (RC_ERROR, bm)
  | some i =>
    match bm.st.frames[i]? with
    | none => (RC_ERROR, bm)
    | some f =>
      if f.pinCount ≤ 0 then (RC_ERROR, bm)
      else
        (RC_OK,
          { bm with st := { bm.st with
              frames := modifyAt (fun g => { g with pinCount := g.pinCount - 1 })
                bm.st.frames i } })

/-- buffer_mgr.c `markDirty`. -/
def markDirty (bm : BM_BufferPool) (pn : Int) : RC × BM_BufferPool :=
  match fr_findIdx bm.st.frames pn with
  | none => (RC_ERROR, bm)
  | some i =>
    (RC_OK,
      { bm with st := { bm.st with
          frames := modifyAt (fun g => { g with isDirty := true })
            bm.st.frames i } })

/-! ## Record manager (record_mgr.c)

The record-manager operations are verified against a write-through view of
the storage: every operation brackets its page access in a full
`pin` / mutate / `markDirty` / `unpin` sequence on the table's private pool,
so in a fault-free single-threaded execution the page image an operation
sees is exactly the image left by the previous operation.  The state is the
page store `Disk` plus the in-memory counters of `RMContext`.  Pinning a
page beyond the end of the file zero-extends it (`ensureCapacity(pn + 1)`
inside `io_read_page`), which `extendTo` models. -/

/-- The page store: byte `store p o` of page `p`, plus the page count.
Pages at and beyond `totalPages` are not materialized; reading them yields
zero (they come into existence zero-filled). -/
structure Disk where
  store : Int → Int → Nat
  totalPages : Int

/-- Byte `o` of page `p` as a reader sees it. -/
def diskRead (d : Disk) (p o : Int) : Nat :=
  if p < d.totalPages then d.store p o else 0

/-- `ensureCapacity(n)` as it affects the store: newly materialized pages
are zero-filled. -/
def extendTo (d : Disk) (n : Int) : Disk :=
  if n ≤ d.totalPages then d
  else
    { store := fun q o => if q < d.totalPages then d.store q o else 0
      totalPages := n }

/-- Write one byte (`*slot = ...`). -/
def writeByte (d : Disk) (p o : Int) (b : Nat) : Disk :=
  { d with store := fun q u => if q = p ∧ u = o then b else d.store q u }

/-- The slot write shared by `insertRecord` and `updateRecord`:
`*slotPtr = 1; memcpy(slotPtr + 1, record->data + 1, recSize - 1)` —
tombstone byte `0x01` at `off`, payload bytes `off + 1 .. off + recSize - 1`
from bytes `1 .. recSize - 1` of the record. -/
def writeSlot (d : Disk) (p off recSize : Int) (rec : Int → Nat) : Disk :=
  { d with
    store := fun q u =>
      if q = p ∧ off ≤ u ∧ u < off + recSize then
        (if u = off then 1 else rec (u - off))
      else d.store q u }

/-- Byte `j` of a little-endian int32 (x86 native layout, as the source's
`*(int*)p = ...` stores). -/
def i32byte (x : Int) (j : Nat) : Nat :=
  ((x % (2 ^ 32 : Int)).toNat >>> (8 * j)) % 256

/-- The page-0 persistence step shared by `insertRecord` and `deleteRecord`:
`*(int*)p = tupleCount; *((int*)p + 1) = firstFreePage` — bytes 0..3 and
4..7 of page 0; the rest of the metadata page is kept intact. -/
def writeMeta (d : Disk) (tc ffp : Int) : Disk :=
  { d with
    store := fun q o =>
      if q = 0 ∧ 0 ≤ o ∧ o < 8 then
        (if o < 4 then i32byte tc o.toNat else i32byte ffp (o - 4).toNat)
      else d.store q o }

/-- record_mgr.h `RID`. -/
structure RID where
  page : Int
  slot : Int
  deriving DecidableEq, Repr

/-- record_mgr.h `Record`: an id plus the record's byte buffer. -/
structure Record where
  id : RID
  data : Int → Nat

/-- The record-manager state: the page store plus the live `RMContext`
counters (`tupleCount`, `firstFreePage`). -/
structure RMState where
  disk : Disk
  tupleCount : Int
  firstFreePage : Int

/-- record_mgr.h data types. -/
inductive DataType where
  | DT_INT
  | DT_STRING
  | DT_FLOAT
  | DT_BOOL
  deriving DecidableEq, Repr

open DataType

/-- Width of one attribute as `getRecordSize` counts it
(x86-64: `sizeof(int) = sizeof(float) = 4`, `sizeof(bool) = 1`). -/
def attrSize : DataType → Int → Int
  | DT_STRING, len => len
  | DT_INT, _ => 4
  | DT_FLOAT, _ => 4
  | DT_BOOL, _ => 1

/-- record_mgr.c `Schema` (names and keys are irrelevant to the claims). -/
structure Schema where
  dataTypes : List DataType
  typeLength : List Int

/-- record_mgr.c `getRecordSize`: sum of attribute widths plus one
tombstone byte. -/
def getRecordSize (s : Schema) : Int :=
  ((s.dataTypes.zip s.typeLength).foldl (fun acc p => acc + attrSize p.1 p.2) 0) + 1

/-- record_mgr.c `rm_is_occupied`: the tombstone byte is exactly `0x01`. -/
def rm_is_occupied (b : Nat) : Bool := b == 1

/-- record_mgr.c `rm_find_free_slot` body: scan slots `s, s+1, ...` while
`rem` slots remain; first slot whose tombstone is not occupied, else `-1`. -/
def findFreeAux (pg : Int → Nat) (recSize : Int) : Nat → Nat → Int
  | _, 0 => -1
  | s, rem + 1 =>
    if rm_is_occupied (pg ((s : Int) * recSize)) then
      findFreeAux pg recSize (s + 1) rem
    else (s : Int)

/-- record_mgr.c `rm_find_free_slot`: `PAGE_SIZE / recSize` slots, first free
one, or `-1` if the page is full. -/
def rm_find_free_slot (pg : Int → Nat) (recSize : Int) : Int :=
  findFreeAux pg recSize 0 (PAGE_SIZE / recSize).toNat

/-- The page-probing loop of `insertRecord`: pin the page (zero-extending
the file through the pool), look for a free slot, else move to the next
page.  The C loop is unbounded; the fuel is chosen by `insertRecord` large
enough to be exhausted only when a page holds no slot at all
(`PAGE_SIZE / recSize = 0`), in which case the C code would not terminate. -/
def insertLoop (recSize : Int) : Disk → Int → Nat → Option (Disk × Int × Int)
  | _, _, 0 => none
  | d, page, fuel + 1 =>
    let d2 := extendTo d (page + 1)
    let s := rm_find_free_slot (fun o => diskRead d2 page o) recSize
    if s = -1 then insertLoop recSize d2 (page + 1) fuel
    else some (d2, page, s)

/-- record_mgr.c `insertRecord`: probe from `firstFreePage` for a free slot,
write tombstone + payload there, bump `tupleCount`, advance the
`firstFreePage` hint if the record landed further right, and persist both
counters into page 0.  `none` models the `recSize <= 0` rejection and the
non-termination of a slotless page geometry. -/
def insertRecord (st : RMState) (recSize : Int) (rec : Int → Nat) :
    Option (RMState × RID) :=
  if recSize ≤ 0 then none
  else
    match insertLoop recSize st.disk st.firstFreePage
        ((st.disk.totalPages - st.firstFreePage).toNat + 1) with
    | none => none
    | some (d, page, slot) =>
      let d2 := writeSlot d page (slot * recSize) recSize rec
      let tc := st.tupleCount + 1
      let ffp := if st.firstFreePage < page then page else st.firstFreePage
      let d3 := writeMeta (extendTo d2 1) tc ffp
      some ({ disk := d3, tupleCount := tc, firstFreePage := ffp },
        { page := page, slot := slot })

/-- record_mgr.c `deleteRecord`: pin `id.page`, clear the tombstone byte —
without checking it — then set `firstFreePage := id.page`, decrement
`tupleCount` when positive, and persist both counters into page 0. -/
def deleteRecord (st : RMState) (recSize : Int) (rid : RID) : RC × RMState :=
  let d := extendTo st.disk (rid.page + 1)
  if recSize ≤ 0 then (RC_MEMORY_ALLOCATION_ERROR, { st with disk := d })
  else
    let d2 := writeByte d rid.page (rid.slot * recSize) 0
    let ffp := rid.page
    let tc := if 0 < st.tupleCount then st.tupleCount - 1 else st.tupleCount
    let d3 := writeMeta (extendTo d2 1) tc ffp
    (RC_OK, { disk := d3, tupleCount := tc, firstFreePage := ffp })

/-- record_mgr.c `updateRecord`: pin `rec.id.page`, overwrite the slot with
tombstone `0x01` plus the record's payload; counters untouched. -/
def updateRecord (st : RMState) (recSize : Int) (rec : Record) : RC × RMState :=
  let d := extendTo st.disk (rec.id.page + 1)
  if recSize ≤ 0 then (RC_MEMORY_ALLOCATION_ERROR, { st with disk := d })
  else
    (RC_OK,
      { st with disk := writeSlot d rec.id.page (rec.id.slot * recSize) recSize rec.data })

/-- record_mgr.c `getRecord`: pin `id.page`; if the tombstone is not
occupied return `RC_RM_NO_TUPLE_WITH_GIVEN_RID` leaving the output record
untouched, otherwise copy the full `recSize` bytes of the slot into the
output buffer and set its id. -/
def getRecord (st : RMState) (recSize : Int) (rid : RID) (out : Record) :
    RC × Record :=
  let d := extendTo st.disk (rid.page + 1)
  if recSize ≤ 0 then (RC_MEMORY_ALLOCATION_ERROR, out)
  else
    let off := rid.slot * recSize
    if rm_is_occupied (diskRead d rid.page off) then
      (RC_OK,
        { id := rid
          data := fun o =>
            if 0 ≤ o ∧ o < recSize then diskRead d rid.page (off + o)
            else out.data o })
    else (RC_RM_NO_TUPLE_WITH_GIVEN_RID, out)

/-! ### Scans -/

/-- The value filled in by `evalExpr` (only the fields `next` inspects:
`dt` and `v.boolV`). -/
structure MValue where
  dt : DataType
  boolV : Bool
  deriving DecidableEq, Repr

/-- The external collaborator `evalExpr`: per the specification it maps
`(Record, Schema, Expression)` deterministically to a return code and a
value; with schema and expression fixed it is a function of the record. -/
def Pred : Type := Record → RC × MValue

/-- The scan-local state `next` mutates: the cursor and the
`firstFreePage` snapshot (`startScan` sets the cursor to `(1, -1)`). -/
structure ScanState where
  cursor : RID
  firstFreePage : Int

/-- Result of one `next` call: return code, final cursor, final output
record, and the number of loop iterations ("cursor steps") executed. -/
structure NextRes where
  rc : RC
  cursor : RID
  out : Record
  steps : Nat

/-- Cursor advancement at the top of `next`'s loop:
`if (++slot >= slotsPerPage) { slot = 0; page++ }` then
`if (page <= 0) page = 1`. -/
def advanceCursor (c : RID) (spp : Int) : RID :=
  let c1 : RID :=
    if spp ≤ c.slot + 1 then { page := c.page + 1, slot := 0 }
    else { page := c.page, slot := c.slot + 1 }
  if c1.page ≤ 0 then { page := 1, slot := c1.slot } else c1

/-- The loop body of record_mgr.c `next`, with the safety counter as fuel:
advance the cursor; stop with `RC_RM_NO_MORE_TUPLES` once the page passes
`firstFreePage + 1`; pin the page (zero-extending through the pool), skip
free slots; otherwise copy the slot into the output record, evaluate the
predicate (propagating its error), and succeed exactly on a
`DT_BOOL`/`true` result. -/
def nextLoop (recSize : Int) (pred : Pred) (ffp : Int) :
    Disk → Record → RID → Nat → NextRes
  | _, out, c, 0 => { rc := RC_RM_NO_MORE_TUPLES, cursor := c, out := out, steps := 0 }
  | d, out, c, fuel + 1 =>
    let spp := PAGE_SIZE / recSize
    let c2 := advanceCursor c spp
    if ffp + 1 < c2.page then
      { rc := RC_RM_NO_MORE_TUPLES, cursor := c2, out := out, steps := 1 }
    else
      let d2 := extendTo d (c2.page + 1)
      let off := c2.slot * recSize
      if ¬ rm_is_occupied (diskRead d2 c2.page off) then
        let r := nextLoop recSize pred ffp d2 out c2 fuel
        { r with steps := r.steps + 1 }
      else
        let out1 : Record :=
          { id := c2
            data := fun o =>
              if 0 ≤ o ∧ o < recSize then diskRead d2 c2.page (off + o)
              else out.data o }
        let ev := pred out1
        if ev.1 ≠ RC_OK then
          { rc := ev.1, cursor := c2, out := out1, steps := 1 }
        else if ev.2.dt == DT_BOOL && ev.2.boolV then
          { rc := RC_OK, cursor := c2, out := out1, steps := 1 }
        else
          let r := nextLoop recSize pred ffp d2 out1 c2 fuel
          { r with steps := r.steps + 1 }

/-- record_mgr.c `next`: reject `recSize <= 0`, then run the loop guarded by
the safety counter `(firstFreePage + 2) * slotsPerPage + 2`. -/
def next (d : Disk) (recSize : Int) (pred : Pred) (s : ScanState)
    (out : Record) : NextRes :=
  if recSize ≤ 0 then
    { rc := RC_ERROR, cursor := s.cursor, out := out, steps := 0 }
  else
    nextLoop recSize pred s.firstFreePage d out s.cursor
      (((s.firstFreePage + 2) * (PAGE_SIZE / recSize) + 2).toNat)

/-- The records produced by up to `n` successive successful `next` calls:
each call resumes from the cursor the previous one left, reusing the output
record, and the collection stops at the first non-`RC_OK` result.  The
table is not modified between calls; `next`'s own pins only zero-extend the
file, which does not change any page image (`diskRead_extendTo`), so the
same `d` is passed to every call. -/
def scanOuts (d : Disk) (recSize : Int) (pred : Pred) (ffp : Int) :
    RID → Record → Nat → List Record
  | _, _, 0 => []
  | c, out, n + 1 =>
    let r := next d recSize pred { cursor := c, firstFreePage := ffp } out
    if r.rc = RC_OK then r.out :: scanOuts d recSize pred ffp r.cursor r.out n
    else []

/-- Strict `(page, slot)` lexicographic order on record ids. -/
def ridLt (a b : RID) : Prop :=
  a.page < b.page ∨ (a.page = b.page ∧ a.slot < b.slot)

/-! ### Operation traces over the record manager -/

/-- The record-manager mutators, for stating trace properties. -/
inductive RMOp where
  | ins (rec : Int → Nat)
  | del (rid : RID)
  | upd (rid : RID) (rec : Int → Nat)

/-- Whether an operation writes to the slot of the given record id (an
insert never does: it only writes to a slot it found free, and to the
metadata page). -/
def opTouches : RMOp → RID → Bool
  | RMOp.ins _, _ => false
  | RMOp.del r, rid => r == rid
  | RMOp.upd r _, rid => r == rid

/-- Run one mutator (an insert that would not terminate leaves the state
unchanged; under the geometry hypotheses of the claims it always returns
`some`). -/
def applyOp (rs : Int) (st : RMState) : RMOp → RMState
  | RMOp.ins rcd =>
    match insertRecord st rs rcd with
    | some pr => pr.1
    | none => st
  | RMOp.del rid => (deleteRecord st rs rid).2
  | RMOp.upd rid rcd => (updateRecord st rs { id := rid, data := rcd }).2

/-- The state and record id produced by a successful `insertRecord`
(dummy values when the insert fails, which the claims' hypotheses rule
out). -/
def insResult (st : RMState) (rs : Int) (rec : Int → Nat) : RMState × RID :=
  match insertRecord st rs rec with
  | some pr => pr
  | none => (st, { page := 0, slot := 0 })

/-- The slot of `rid` holds an occupied tombstone and the payload bytes of
`rec`. -/
def slotIntact (rs : Int) (rid : RID) (rec : Int → Nat) (st : RMState) : Prop :=
  ∀ o : Int, 0 ≤ o → o < rs →
    diskRead st.disk rid.page (rid.slot * rs + o) = (if o = 0 then 1 else rec o)

/-! ## Concrete inputs used by counterexamples and witnesses -/

/-- An environment in which every physical file operation succeeds and the
backing file is one all-zero page (a freshly created page file). -/
def envOK : SMEnv :=
  { openOk := true, seekOk := true, readOk := true, blockWriteOk := true
    appendOk := fun _ => true, filePages := 1, disk := fun _ _ => 0 }

/-- An environment whose file holds two pages of byte `5`, in which the
physical block read fails (everything else succeeds). -/
def envReadFail : SMEnv :=
  { openOk := true, seekOk := true, readOk := false, blockWriteOk := true
    appendOk := fun _ => true, filePages := 2, disk := fun _ _ => 5 }

/-- An environment in which appending zero pages fails. -/
def envAppendFail : SMEnv :=
  { openOk := true, seekOk := true, readOk := true, blockWriteOk := true
    appendOk := fun _ => false, filePages := 1, disk := fun _ _ => 0 }

/-- Pin a page and immediately unpin it. -/
def pinU (env : SMEnv) (bm : BM_BufferPool) (pn : Int) : BM_BufferPool :=
  (unpinPage (pinPage env bm pn).2.1 pn).2

/-- Scenario S3 of the specification: a fresh pool of capacity 2 with the
LRU strategy. -/
def s3pool0 : BM_BufferPool :=
  { strategy := ReplacementStrategy.RS_LRU
    st := { frames := [], used := 0, capacity := 2, reads := 0, writes := 0, tick := 0 } }

/-- Scenario S3 after pin 1, pin 2, pin 1 (unpinning after each):
frames hold pages `[1, 2]` with last-touch stamps `[3, 2]`. -/
def s3pre : BM_BufferPool := pinU envOK (pinU envOK (pinU envOK s3pool0 1) 2) 1

/-- Scenario S3 after the final pin 3 (and its unpin). -/
def s3after : BM_BufferPool := pinU envOK s3pre 3

/-- A fresh pool of capacity 1 with the LRU strategy. -/
def c3pool0 : BM_BufferPool :=
  { strategy := ReplacementStrategy.RS_LRU
    st := { frames := [], used := 0, capacity := 1, reads := 0, writes := 0, tick := 0 } }

/-- Capacity-1 pool after pin 1, markDirty 1, unpin 1: one unpinned dirty
frame holding page 1. -/
def c3dirty : BM_BufferPool :=
  (unpinPage (markDirty (pinPage envOK c3pool0 1).2.1 1).2 1).2

/-- A record-manager state as `createTable` leaves it: a one-page file
(page 0 is metadata, modelled all-zero here), no tuples, first free page 1. -/
def rmSt0 : RMState :=
  { disk := { store := fun _ _ => 0, totalPages := 1 }
    tupleCount := 0
    firstFreePage := 1 }

/-- Like `rmSt0` but with `tupleCount = 5`. -/
def rmSt5 : RMState :=
  { disk := { store := fun _ _ => 0, totalPages := 1 }
    tupleCount := 5
    firstFreePage := 1 }

/-- A payload whose byte 1 is 7 and whose other bytes are 0. -/
def rec7 : Int → Nat := fun o => if o = 1 then 7 else 0

/-- A caller-owned output record. -/
def outRec0 : Record := { id := { page := 0, slot := 0 }, data := fun _ => 0 }

/-- A two-page table image holding exactly one record: page 1, slot 0,
occupied tombstone, zero payload (one slot per page at `recSize = 4096`). -/
def diskOneRec : Disk :=
  { store := fun p o => if p = 1 ∧ o = 0 then 1 else 0, totalPages := 2 }

/-- A predicate that evaluates every record to a boolean `true`. -/
def predTrue : Pred := fun _ => (RC_OK, { dt := DT_BOOL, boolV := true })

/-! ## Helper lemmas: buffer pool -/

/-- getElem? through `modifyAt`. -/
theorem modifyAt_getElem? (g : Frame → Frame) :
    ∀ (fs : List Frame) (i j : Nat),
      (modifyAt g fs i)[j]? = if j = i then (fs[i]?).map g else fs[j]?
  | [], i, j => by simp [modifyAt]
  | f :: fs, 0, 0 => by simp [modifyAt]
  | f :: fs, 0, j + 1 => by simp [modifyAt]
  | f :: fs, i + 1, 0 => by simp [modifyAt]
  | f :: fs, i + 1, j + 1 => by
    simp [modifyAt, modifyAt_getElem? g fs i j]

/-- `fr_victimIdx` finds the first frame (in insertion order) whose
`pinCount` is not positive. -/
theorem fr_victimIdx_spec :
    ∀ (fs : List Frame) (i : Nat), fr_victimIdx fs = some i →
      (∃ v, fs[i]? = some v ∧ v.pinCount ≤ 0) ∧
      (∀ j, j < i → ∀ g, fs[j]? = some g → 0 < g.pinCount)
  | [], i, h => by simp [fr_victimIdx] at h
  | f :: fs, i, h => by
    by_cases hp : f.pinCount ≤ 0
    · simp [fr_victimIdx, hp] at h
      subst h
      exact ⟨⟨f, by simp, hp⟩, fun j hj g hg => absurd hj (by omega)⟩
    · simp [fr_victimIdx, hp] at h
      obtain ⟨k, hk, hki⟩ := h
      obtain ⟨⟨v, hv, hvle⟩, hmin⟩ := fr_victimIdx_spec fs k hk
      subst hki
      refine ⟨⟨v, by simpa using hv, hvle⟩, ?_⟩
      intro j hj g hg
      match j with
      | 0 => simp at hg; subst hg; omega
      | j + 1 =>
        exact hmin j (by omega) g (by simpa using hg)

/-- Full characterization of `pinPage` on the replacement path with a
successful page read: the victim frame `v` at index `i` is overwritten in
place; `pinCount`, `refCount`, `lastTouch` are reset but `isDirty` is
inherited from the victim, and a dirty victim triggers a write-back whose
return code is dropped. -/
theorem pinPage_replace_eq (env : SMEnv) (bm : BM_BufferPool) (pn : Int) (i : Nat)
    (v : Frame)
    (hmiss : fr_findIdx bm.st.frames pn = none)
    (hfull : ¬ bm.st.used < bm.st.capacity)
    (hvic : fr_victimIdx bm.st.frames = some i)
    (hv : bm.st.frames[i]? = some v)
    (hio : (io_read_page env pn (fun _ => 0) bm.st.reads).1 = RC_OK) :
    pinPage env bm pn =
      (RC_OK,
        { bm with st :=
          { bm.st with
            frames := modifyAt
              (fun _ =>
                { data := (io_read_page env pn (fun _ => 0) bm.st.reads).2.1
                  pageNum := pn
                  isDirty := v.isDirty
                  pinCount := 1
                  refCount := 1
                  lastTouch := bm.st.tick + 1 }) bm.st.frames i
            reads := (io_read_page env pn (fun _ => 0) bm.st.reads).2.2
            writes := if v.isDirty then (io_write_page env v.pageNum bm.st.writes).2
                      else bm.st.writes
            tick := bm.st.tick + 1 } },
        (io_read_page env pn (fun _ => 0) bm.st.reads).2.1) := by
  simp only [pinPage, hmiss, hvic, hv, hfull, if_false, hio]
  simp [hio]

/-! ## Claim C1 -/

/-- C1, counterexample.  In scenario S3 (capacity 2, LRU strategy, pin
sequence 1, 2, 1, 3 with unpins) the claim requires the frame holding
page 2 — the least recently used — to be evicted, leaving pages {1, 3}
resident.  The code's replacement ignores `last_touch` entirely: before the
final pin the frames hold pages `[1, 2]` with last-touch stamps `[3, 2]`
and pin counts `[0, 0]`, and the final pin evicts page 1 (the head of the
frame list), leaving pages `[3, 2]` resident — page 2 is still resident
and page 1 is gone. -/
theorem c1_counterexample :
    s3pre.strategy = ReplacementStrategy.RS_LRU ∧
    s3pre.st.frames.map (·.pageNum) = [1, 2] ∧
    s3pre.st.frames.map (·.lastTouch) = [3, 2] ∧
    s3pre.st.frames.map (·.pinCount) = [0, 0] ∧
    s3after.st.frames.map (·.pageNum) = [3, 2] ∧
    (s3after.st.frames.map (·.pageNum)).contains 1 = false ∧
    (s3after.st.frames.map (·.pageNum)).contains 2 = true := by decide

/-- C1 (amended): whenever `pinPage` must replace a frame, the victim is
the first frame in insertion order whose `pin_count` is not positive,
regardless of the configured strategy — `last_touch` plays no role.  In
scenario S3 the frame holding page 1 is evicted and pages {3, 2} remain
resident.  Stated for any pool: on a miss with a full pool, if the victim
scan stops at index `i` and the page read succeeds, then the pin succeeds,
exactly the frame at index `i` now holds the requested page, the frame at
`i` was evictable (`pinCount ≤ 0`), and every frame before `i` was pinned. -/
theorem c1_victim_insertion_order (env : SMEnv) (bm : BM_BufferPool) (pn : Int)
    (i : Nat)
    (hmiss : fr_findIdx bm.st.frames pn = none)
    (hfull : ¬ bm.st.used < bm.st.capacity)
    (hvic : fr_victimIdx bm.st.frames = some i)
    (hio : (io_read_page env pn (fun _ => 0) bm.st.reads).1 = RC_OK) :
    (pinPage env bm pn).1 = RC_OK ∧
    (∀ j : Nat, ((pinPage env bm pn).2.1.st.frames.map (·.pageNum))[j]? =
      if j = i then some pn else (bm.st.frames.map (·.pageNum))[j]?) ∧
    (∃ v, bm.st.frames[i]? = some v ∧ v.pinCount ≤ 0) ∧
    (∀ j, j < i → ∀ g, bm.st.frames[j]? = some g → 0 < g.pinCount) := by
  obtain ⟨⟨v, hv, hvle⟩, hmin⟩ := fr_victimIdx_spec bm.st.frames i hvic
  rw [pinPage_replace_eq env bm pn i v hmiss hfull hvic hv hio]
  refine ⟨rfl, fun j => ?_, ⟨v, hv, hvle⟩, hmin⟩
  simp only [List.getElem?_map, modifyAt_getElem?, hv]
  by_cases hj : j = i <;> simp [hj]

/-- C1, witness: the amended statement applied to scenario S3's final pin
(page 3 into the full pool whose frames hold pages `[1, 2]`). -/
theorem c1_victim_insertion_order_witness :
    (pinPage envOK s3pre 3).1 = RC_OK ∧
    (∀ j : Nat, ((pinPage envOK s3pre 3).2.1.st.frames.map (·.pageNum))[j]? =
      if j = 0 then some 3 else (s3pre.st.frames.map (·.pageNum))[j]?) ∧
    (∃ v, s3pre.st.frames[0]? = some v ∧ v.pinCount ≤ 0) ∧
    (∀ j, j < 0 → ∀ g, s3pre.st.frames[j]? = some g → 0 < g.pinCount) :=
  c1_victim_insertion_order envOK s3pre 3 0 (by decide) (by decide) (by decide)
    (by decide)

/-! ## Claim C3 -/

/-- C3, counterexample.  The claim requires the reused frame to end with
`dirty = false`.  Take a capacity-1 pool whose single frame holds page 1,
is dirty and unpinned; pinning page 2 takes the replacement path, reuses
the frame — and leaves it marked dirty. -/
theorem c3_counterexample :
    c3dirty.st.frames.map (·.isDirty) = [true] ∧
    c3dirty.st.frames.map (·.pinCount) = [0] ∧
    (pinPage envOK c3dirty 2).1 = RC_OK ∧
    (pinPage envOK c3dirty 2).2.1.st.frames.map (·.pageNum) = [2] ∧
    (pinPage envOK c3dirty 2).2.1.st.frames.map (·.isDirty) = [true] := by decide

/-- C3 (amended): on the replacement path of `pinPage`, after the victim
frame is reused for the requested page the frame has `pin_count = 1`,
`ref_count = 1`, `last_touch` equal to the incremented tick, and it holds
the new page; a dirty victim is first written to disk (the write bumps
`num_write_io` when it succeeds and its return code is dropped); but the
dirty flag is not reset: the reused frame inherits the victim's `isDirty`,
so reusing a dirty victim leaves the frame marked dirty. -/
theorem c3_replacement_reset (env : SMEnv) (bm : BM_BufferPool) (pn : Int)
    (i : Nat)
    (hmiss : fr_findIdx bm.st.frames pn = none)
    (hfull : ¬ bm.st.used < bm.st.capacity)
    (hvic : fr_victimIdx bm.st.frames = some i)
    (hio : (io_read_page env pn (fun _ => 0) bm.st.reads).1 = RC_OK) :
    ∃ v f2, bm.st.frames[i]? = some v ∧
      (pinPage env bm pn).2.1.st.frames[i]? = some f2 ∧
      f2.pageNum = pn ∧ f2.pinCount = 1 ∧ f2.refCount = 1 ∧
      f2.lastTouch = bm.st.tick + 1 ∧ f2.isDirty = v.isDirty ∧
      (pinPage env bm pn).2.1.st.writes =
        (if v.isDirty then (io_write_page env v.pageNum bm.st.writes).2
         else bm.st.writes) := by
  obtain ⟨⟨v, hv, hvle⟩, hmin⟩ := fr_victimIdx_spec bm.st.frames i hvic
  rw [pinPage_replace_eq env bm pn i v hmiss hfull hvic hv hio]
  refine ⟨v,
    { data := (io_read_page env pn (fun _ => 0) bm.st.reads).2.1
      pageNum := pn
      isDirty := v.isDirty
      pinCount := 1
      refCount := 1
      lastTouch := bm.st.tick + 1 }, hv, ?_, rfl, rfl, rfl, rfl, rfl, rfl⟩
  simp [modifyAt_getElem?, hv]

/-- C3, witness: the amended statement applied to the capacity-1 pool with
a dirty unpinned frame holding page 1, pinning page 2. -/
theorem c3_replacement_reset_witness :
    ∃ v f2, c3dirty.st.frames[0]? = some v ∧
      (pinPage envOK c3dirty 2).2.1.st.frames[0]? = some f2 ∧
      f2.pageNum = 2 ∧ f2.pinCount = 1 ∧ f2.refCount = 1 ∧
      f2.lastTouch = c3dirty.st.tick + 1 ∧ f2.isDirty = v.isDirty ∧
      (pinPage envOK c3dirty 2).2.1.st.writes =
        (if v.isDirty then (io_write_page envOK v.pageNum c3dirty.st.writes).2
         else c3dirty.st.writes) :=
  c3_replacement_reset envOK c3dirty 2 0 (by decide) (by decide) (by decide)
    (by decide)

/-! ## Claim C4 -/

/-- C4, counterexample.  Page 0 exists in the backing file (`filePages = 2`)
and the physical block read fails, so the claim requires `pinPage` to
return that error; instead the failure is swallowed: `pinPage` returns
`RC_OK` and the handle buffer holds the ASCII text `Page-0` (byte 0 is
`'P'` = 80, byte 5 is `'0'` = 48) rather than the page's bytes (5). -/
theorem c4_counterexample :
    (readBlock envReadFail 0 { totalNumPages := 2, curPagePos := 0 }
      (fun _ => 0)).1 ≠ RC_OK ∧
    (0 : Int) + 1 ≤ envReadFail.filePages ∧
    (pinPage envReadFail c3pool0 0).1 = RC_OK ∧
    (pinPage envReadFail c3pool0 0).2.2 0 = 80 ∧
    (pinPage envReadFail c3pool0 0).2.2 5 = 48 := by decide

/-- C4 (amended): when `pinPage` loads a page from disk (cold-fill path)
and the file open and the zero-extension succeed, a failure of the physical
block read is *not* returned to the caller: `pinPage` returns `RC_OK` and
the handle buffer holds the text `Page-<n>` written by `snprintf` over the
zeroed buffer.  Only failures of `openPageFile` or of `ensureCapacity`
propagate out of `pinPage`'s read path. -/
theorem c4_read_failure_swallowed (env : SMEnv) (bm : BM_BufferPool) (pn : Int)
    (hmiss : fr_findIdx bm.st.frames pn = none)
    (hcold : bm.st.used < bm.st.capacity)
    (hopen : env.openOk = true)
    (hens : (ensureCapacity env (pn + 1)
      { totalNumPages := env.filePages, curPagePos := 0 }).1 = RC_OK)
    (hread : (readBlock env pn
      (ensureCapacity env (pn + 1)
        { totalNumPages := env.filePages, curPagePos := 0 }).2
      (fun _ => 0)).1 ≠ RC_OK) :
    (pinPage env bm pn).1 = RC_OK ∧
    (pinPage env bm pn).2.2 = snprintfTag pn (fun _ => 0) := by
  have hio : io_read_page env pn (fun _ => 0) bm.st.reads =
      (RC_OK, snprintfTag pn (fun _ => 0), bm.st.reads + 1) := by
    simp only [io_read_page, hopen, hens, hread]
    simp [hread]
  simp only [pinPage, hmiss, hcold, if_pos, hio]
  simp

/-- C4, witness: the amended statement applied to a fresh capacity-1 pool
pinning page 0 of a two-page file whose block read fails. -/
theorem c4_read_failure_swallowed_witness :
    (pinPage envReadFail c3pool0 0).1 = RC_OK ∧
    (pinPage envReadFail c3pool0 0).2.2 = snprintfTag 0 (fun _ => 0) :=
  c4_read_failure_swallowed envReadFail c3pool0 0 (by decide) (by decide)
    (by decide) (by decide) (by decide)

/-! ## Claim C5 -/

/-- C5, counterexample.  The claim requires `num_read_io` to be bumped only
when the underlying page read has succeeded.  With the block read failing
(and open and extension succeeding), `io_read_page` bumps the counter from
0 to 1 anyway — and reports `RC_OK`. -/
theorem c5_counterexample :
    (readBlock envReadFail 0 { totalNumPages := 2, curPagePos := 0 }
      (fun _ => 0)).1 ≠ RC_OK ∧
    (io_read_page envReadFail 0 (fun _ => 0) 0).2.2 = 1 ∧
    (io_read_page envReadFail 0 (fun _ => 0) 0).1 = RC_OK := by decide

/-- C5 (amended): both counters are monotonically non-decreasing and change
by at most one per call.  `num_write_io` is bumped exactly when the whole
write path (open, extension, block write) succeeded.  `num_read_io`,
however, is bumped exactly when `io_read_page` returns `RC_OK`, which is
whenever the open and the extension succeed — including calls whose
physical block read failed. -/
theorem c5_io_counters (env : SMEnv) (pn : Int) (buf : Int → Nat)
    (reads writes : Int) :
    reads ≤ (io_read_page env pn buf reads).2.2 ∧
    ((io_read_page env pn buf reads).2.2 = reads ∨
      (io_read_page env pn buf reads).2.2 = reads + 1) ∧
    ((io_read_page env pn buf reads).2.2 = reads + 1 ↔
      (io_read_page env pn buf reads).1 = RC_OK) ∧
    writes ≤ (io_write_page env pn writes).2 ∧
    ((io_write_page env pn writes).2 = writes ∨
      (io_write_page env pn writes).2 = writes + 1) ∧
    ((io_write_page env pn writes).2 = writes + 1 ↔
      (io_write_page env pn writes).1 = RC_OK) := by
  by_cases ho : env.openOk <;>
    by_cases he : (ensureCapacity env (pn + 1)
      { totalNumPages := env.filePages, curPagePos := 0 }).1 = RC_OK <;>
    by_cases hw : (writeBlock env pn
      (ensureCapacity env (pn + 1)
        { totalNumPages := env.filePages, curPagePos := 0 }).2).1 = RC_OK <;>
    simp [io_read_page, io_write_page, ho, he, hw]

/-- C5, witness: the amended statement at a concrete call. -/
theorem c5_io_counters_witness :
    (0 : Int) ≤ (io_read_page envOK 0 (fun _ => 0) 0).2.2 ∧
    ((io_read_page envOK 0 (fun _ => 0) 0).2.2 = 0 ∨
      (io_read_page envOK 0 (fun _ => 0) 0).2.2 = 0 + 1) ∧
    ((io_read_page envOK 0 (fun _ => 0) 0).2.2 = 0 + 1 ↔
      (io_read_page envOK 0 (fun _ => 0) 0).1 = RC_OK) ∧
    (0 : Int) ≤ (io_write_page envOK 0 0).2 ∧
    ((io_write_page envOK 0 0).2 = 0 ∨ (io_write_page envOK 0 0).2 = 0 + 1) ∧
    ((io_write_page envOK 0 0).2 = 0 + 1 ↔ (io_write_page envOK 0 0).1 = RC_OK) :=
  c5_io_counters envOK 0 (fun _ => 0) 0 0

/-! ## Claim C9 -/

/-- C9: `ensureCapacity(n)` is a no-op returning `RC_OK` whenever
`totalNumPages` is already at least `n`; and when extension is needed but a
page write fails mid-extension (the seek having succeeded), it returns
`RC_WRITE_FAILED` with the handle — in particular `totalNumPages` — left at
its pre-call value. -/
theorem c9_ensure_capacity (env : SMEnv) (n : Int) (h : SM_FileHandle) :
    (n ≤ h.totalNumPages → ensureCapacity env n h = (RC_OK, h)) ∧
    (0 < n → h.totalNumPages < n → env.seekOk = true →
      ecLoop env 0 (n - h.totalNumPages).toNat = false →
      ensureCapacity env n h = (RC_WRITE_FAILED, h)) := by
  constructor
  · intro hle
    by_cases h0 : n ≤ 0 <;> simp [ensureCapacity, h0, hle]
  · intro hn hlt hseek hloop
    have h0 : ¬ n ≤ 0 := by omega
    have h1 : ¬ n ≤ h.totalNumPages := by omega
    simp [ensureCapacity, h0, h1, hseek, hloop]

/-- C9, witness. -/
theorem c9_ensure_capacity_witness :
    ensureCapacity envAppendFail 3 { totalNumPages := 1, curPagePos := 0 } =
      (RC_WRITE_FAILED, { totalNumPages := 1, curPagePos := 0 }) ∧
    ensureCapacity envOK 1 { totalNumPages := 2, curPagePos := 0 } =
      (RC_OK, { totalNumPages := 2, curPagePos := 0 }) :=
  ⟨(c9_ensure_capacity envAppendFail 3 _).2 (by decide) (by decide) (by decide)
      (by decide),
   (c9_ensure_capacity envOK 1 _).1 (by decide)⟩

/-! ## Helper lemmas: page store -/

/-- Zero-extension does not change any page image. -/
theorem diskRead_extendTo (d : Disk) (n p o : Int) :
    diskRead (extendTo d n) p o = diskRead d p o := by
  unfold diskRead extendTo
  by_cases h : n ≤ d.totalPages
  · simp [h]
  · by_cases hp : p < n <;> by_cases hq : p < d.totalPages <;>
      simp [h, hp, hq] <;> omega

theorem extendTo_le (d : Disk) (n : Int) : n ≤ (extendTo d n).totalPages := by
  unfold extendTo
  by_cases h : n ≤ d.totalPages <;> simp [h]

theorem extendTo_ge (d : Disk) (n : Int) :
    d.totalPages ≤ (extendTo d n).totalPages := by
  unfold extendTo
  by_cases h : n ≤ d.totalPages <;> simp [h]
  omega

theorem extendTo_eq_self (d : Disk) (n : Int) (h : n ≤ d.totalPages) :
    extendTo d n = d := by
  unfold extendTo
  simp [h]

/-- Reading beyond the end of the store yields zero. -/
theorem diskRead_beyond (d : Disk) (p o : Int) (h : d.totalPages ≤ p) :
    diskRead d p o = 0 := by
  unfold diskRead
  simp [not_lt.mpr h]

/-- Two distinct slots of the same page occupy disjoint byte ranges: a
byte of slot `a` (at in-slot offset `o`) equal to a byte of slot `b` (at
in-slot offset `o2`) forces `a = b`. -/
theorem slot_disjoint (rs a b o o2 : Int) (hrs : 1 ≤ rs) (ho : 0 ≤ o)
    (ho2 : o < rs) (hb : 0 ≤ o2) (hb2 : o2 < rs)
    (heq : a * rs + o = b * rs + o2) : a = b := by
  rcases lt_trichotomy a b with h | h | h
  · exfalso
    have h1 : a + 1 ≤ b := h
    have h2 : (a + 1) * rs ≤ b * rs :=
      mul_le_mul_of_nonneg_right h1 (by omega)
    nlinarith
  · exact h
  · exfalso
    have h1 : b + 1 ≤ a := h
    have h2 : (b + 1) * rs ≤ a * rs :=
      mul_le_mul_of_nonneg_right h1 (by omega)
    nlinarith

theorem writeSlot_totalPages (d : Disk) (p off rs : Int) (rcd : Int → Nat) :
    (writeSlot d p off rs rcd).totalPages = d.totalPages := rfl

/-- `writeSlot` leaves bytes outside its target range unchanged. -/
theorem diskRead_writeSlot_other (d : Disk) (p off rs : Int) (rcd : Int → Nat)
    (q u : Int) (h : ¬ (q = p ∧ off ≤ u ∧ u < off + rs)) :
    diskRead (writeSlot d p off rs rcd) q u = diskRead d q u := by
  unfold diskRead writeSlot
  by_cases hq : q < d.totalPages <;> simp [hq, h]

/-- `writeSlot` writes the tombstone and payload bytes. -/
theorem diskRead_writeSlot_hit (d : Disk) (p off rs : Int) (rcd : Int → Nat)
    (u : Int) (hp : p < d.totalPages) (h1 : off ≤ u) (h2 : u < off + rs) :
    diskRead (writeSlot d p off rs rcd) p u =
      (if u = off then 1 else rcd (u - off)) := by
  unfold diskRead writeSlot
  simp [hp, h1, h2]

theorem writeByte_totalPages (d : Disk) (p o : Int) (b : Nat) :
    (writeByte d p o b).totalPages = d.totalPages := rfl

theorem diskRead_writeByte_other (d : Disk) (p o : Int) (b : Nat) (q u : Int)
    (h : ¬ (q = p ∧ u = o)) :
    diskRead (writeByte d p o b) q u = diskRead d q u := by
  unfold diskRead writeByte
  by_cases hq : q < d.totalPages <;> simp [hq, h]

theorem diskRead_writeByte_hit (d : Disk) (p o : Int) (b : Nat)
    (hp : p < d.totalPages) :
    diskRead (writeByte d p o b) p o = b := by
  unfold diskRead writeByte
  simp [hp]

theorem writeMeta_totalPages (d : Disk) (tc ffp : Int) :
    (writeMeta d tc ffp).totalPages = d.totalPages := rfl

/-- `writeMeta` only touches bytes 0..7 of page 0. -/
theorem diskRead_writeMeta_other (d : Disk) (tc ffp : Int) (q u : Int)
    (h : ¬ (q = 0 ∧ 0 ≤ u ∧ u < 8)) :
    diskRead (writeMeta d tc ffp) q u = diskRead d q u := by
  unfold diskRead writeMeta
  by_cases hq : q < d.totalPages <;> simp [hq, h]

/-! ## Helper lemmas: record manager -/

/-- The free-slot scan: a non-`-1` result is a slot index at or after the
start whose tombstone byte is not occupied. -/
theorem findFreeAux_spec (pg : Int → Nat) (rs : Int) :
    ∀ (rem s : Nat), findFreeAux pg rs s rem ≠ -1 →
      ∃ k : Nat, findFreeAux pg rs s rem = (k : Int) ∧ s ≤ k ∧
        rm_is_occupied (pg ((k : Int) * rs)) = false
  | 0, s, h => by simp [findFreeAux] at h
  | rem + 1, s, h => by
    by_cases hocc : rm_is_occupied (pg ((s : Int) * rs))
    · have hrec := findFreeAux_spec pg rs rem (s + 1)
      rw [findFreeAux, if_pos hocc] at h ⊢
      obtain ⟨k, hk, hks, hkf⟩ := hrec h
      exact ⟨k, hk, by omega, hkf⟩
    · rw [findFreeAux, if_neg hocc] at h ⊢
      exact ⟨s, rfl, le_refl s, by simpa using hocc⟩

/-- The free-slot scan succeeds immediately when the first probed slot is
free and at least one slot remains. -/
theorem findFreeAux_first_free (pg : Int → Nat) (rs : Int) (s rem : Nat)
    (hrem : 0 < rem) (hfree : rm_is_occupied (pg ((s : Int) * rs)) = false) :
    findFreeAux pg rs s rem = (s : Int) := by
  match rem, hrem with
  | rem + 1, _ =>
    rw [findFreeAux, if_neg (by simp [hfree])]

/-- An all-zero page has its slot 0 free (when the page geometry admits at
least one slot). -/
theorem rm_find_free_slot_zero_page (pg : Int → Nat) (rs : Int)
    (hslots : 0 < (PAGE_SIZE / rs).toNat) (hzero : ∀ o, pg o = 0) :
    rm_find_free_slot pg rs = 0 := by
  unfold rm_find_free_slot
  have := findFreeAux_first_free pg rs 0 (PAGE_SIZE / rs).toNat hslots
    (by simp [hzero, rm_is_occupied])
  simpa using this

/-- A record no wider than a page leaves at least one slot per page. -/
theorem slots_pos (rs : Int) (h1 : 1 ≤ rs) (h2 : rs ≤ PAGE_SIZE) :
    0 < (PAGE_SIZE / rs).toNat := by
  have : 1 ≤ PAGE_SIZE / rs := by
    rw [Int.le_ediv_iff_mul_le (by omega)]
    simpa using h2
  omega

/-- What a successful `insertLoop` probe guarantees: the returned disk is a
zero-extension of the input (same page images, at least as many pages, and
the found page materialized), the found page is at or after the start page,
and the found slot is the free-slot scan's answer on that page. -/
theorem insertLoop_sound (rs : Int) :
    ∀ (fuel : Nat) (d : Disk) (page : Int) (d2 : Disk) (p s : Int),
      insertLoop rs d page fuel = some (d2, p, s) →
      (∀ q o, diskRead d2 q o = diskRead d q o) ∧
      page ≤ p ∧ p + 1 ≤ d2.totalPages ∧ d.totalPages ≤ d2.totalPages ∧
      s = rm_find_free_slot (fun o => diskRead d2 p o) rs ∧ s ≠ -1
  | 0, d, page, d2, p, s, h => by simp [insertLoop] at h
  | fuel + 1, d, page, d2, p, s, h => by
    rw [insertLoop] at h
    by_cases hs : rm_find_free_slot
        (fun o => diskRead (extendTo d (page + 1)) page o) rs = -1
    · rw [if_pos hs] at h
      obtain ⟨hread, hle, htot, hmono, hchar, hne⟩ :=
        insertLoop_sound rs fuel (extendTo d (page + 1)) (page + 1) d2 p s h
      refine ⟨fun q o => ?_, by omega, htot, ?_, hchar, hne⟩
      · rw [hread q o, diskRead_extendTo]
      · exact le_trans (extendTo_ge d (page + 1)) hmono
    · rw [if_neg hs] at h
      simp only [Option.some.injEq, Prod.mk.injEq] at h
      obtain ⟨h1, h2, h3⟩ := h
      subst h1
      subst h2
      subst h3
      refine ⟨fun q o => diskRead_extendTo d (page + 1) q o, le_refl _,
        extendTo_le d (page + 1), extendTo_ge d (page + 1), rfl, hs⟩

/-- The probe loop cannot run out of fuel once the fuel exceeds the number
of pages left before the end of the file: a page past the end is zero, and
an all-zero page yields a free slot. -/
theorem insertLoop_isSome (rs : Int) (hslots : 0 < (PAGE_SIZE / rs).toNat) :
    ∀ (fuel : Nat) (d : Disk) (page : Int),
      (d.totalPages - page).toNat < fuel →
      (insertLoop rs d page fuel).isSome = true
  | 0, _, _, h => by omega
  | fuel + 1, d, page, h => by
    rw [insertLoop]
    by_cases hs : rm_find_free_slot
        (fun o => diskRead (extendTo d (page + 1)) page o) rs = -1
    · rw [if_pos hs]
      have hlt : page < d.totalPages := by
        by_contra hge
        have hzero : ∀ o : Int, diskRead (extendTo d (page + 1)) page o = 0 := by
          intro o
          rw [diskRead_extendTo]
          exact diskRead_beyond d page o (by omega)
        rw [rm_find_free_slot_zero_page _ rs hslots hzero] at hs
        exact absurd hs (by norm_num)
      rw [extendTo_eq_self d (page + 1) (by omega)] at hs ⊢
      exact insertLoop_isSome rs hslots fuel d (page + 1) (by omega)
    · rw [if_neg hs]
      rfl

/-- `insertRecord` always succeeds under a sane page geometry
(`1 ≤ recSize ≤ PAGE_SIZE`). -/
theorem insertRecord_isSome (st : RMState) (rs : Int) (rcd : Int → Nat)
    (h1 : 1 ≤ rs) (h2 : rs ≤ PAGE_SIZE) :
    (insertRecord st rs rcd).isSome = true := by
  rw [insertRecord, if_neg (by omega)]
  have hl := insertLoop_isSome rs (slots_pos rs h1 h2)
    ((st.disk.totalPages - st.firstFreePage).toNat + 1) st.disk st.firstFreePage
    (by omega)
  obtain ⟨⟨d, p, s⟩, hx⟩ := Option.isSome_iff_exists.mp hl
  rw [hx]
  simp

/-- A successful `insertRecord` yields a record id on a heap page (at or
after `firstFreePage`, hence ≥ 1), with a non-negative slot, whose slot
afterwards holds the occupied tombstone and the record's payload. -/
theorem insertRecord_sound (st : RMState) (rs : Int) (rcd : Int → Nat)
    (st1 : RMState) (rid : RID)
    (hrs : 1 ≤ rs) (hffp : 1 ≤ st.firstFreePage)
    (h : insertRecord st rs rcd = some (st1, rid)) :
    1 ≤ rid.page ∧ 0 ≤ rid.slot ∧ slotIntact rs rid rcd st1 := by
  rw [insertRecord, if_neg (by omega)] at h
  cases hloop : insertLoop rs st.disk st.firstFreePage
      ((st.disk.totalPages - st.firstFreePage).toNat + 1) with
  | none => rw [hloop] at h; exact absurd h (by simp)
  | some pr =>
    obtain ⟨dL, p2, s2⟩ := pr
    rw [hloop] at h
    simp only [Option.some.injEq, Prod.mk.injEq] at h
    obtain ⟨hst1, hrid⟩ := h
    obtain ⟨hread, hple, hptot, hmono, hchar, hne⟩ :=
      insertLoop_sound rs _ st.disk st.firstFreePage dL p2 s2 hloop
    obtain ⟨k, hk, _, hkfree⟩ := findFreeAux_spec
      (fun o => diskRead dL p2 o) rs ((PAGE_SIZE / rs).toNat) 0
      (by rw [← rm_find_free_slot, ← hchar]; exact hne)
    rw [← rm_find_free_slot, ← hchar] at hk
    have hpage : 1 ≤ p2 := by omega
    have hslot : 0 ≤ s2 := by omega
    subst hrid
    refine ⟨hpage, hslot, ?_⟩
    intro o ho1 ho2
    subst hst1
    simp only
    rw [diskRead_writeMeta_other _ _ _ _ _ (by simp; omega),
      diskRead_extendTo,
      diskRead_writeSlot_hit dL p2 (s2 * rs) rs rcd _
        (by omega) (by omega) (by omega)]
    by_cases ho : o = 0
    · simp [ho]
    · simp [ho]

/-- No mutator that does not target `rid` can disturb `rid`'s slot: an
insert lands on a slot it found free (which `rid`'s occupied slot is not),
a delete or update of a different record id writes to a disjoint byte
range, and the metadata writes touch only page 0. -/
theorem slotIntact_applyOp (rs : Int) (rid : RID) (rcd : Int → Nat)
    (op : RMOp) (st : RMState)
    (hrs : 1 ≤ rs)
    (hpage : 1 ≤ rid.page) (hslot : 0 ≤ rid.slot)
    (htouch : opTouches op rid = false)
    (hP : slotIntact rs rid rcd st) :
    slotIntact rs rid rcd (applyOp rs st op) := by
  cases op with
  | ins rec2 =>
    rw [applyOp]
    cases heq : insertRecord st rs rec2 with
    | none => exact hP
    | some pr =>
      obtain ⟨st2, rid2⟩ := pr
      rw [insertRecord, if_neg (by omega)] at heq
      cases hloop : insertLoop rs st.disk st.firstFreePage
          ((st.disk.totalPages - st.firstFreePage).toNat + 1) with
      | none => rw [hloop] at heq; exact absurd heq (by simp)
      | some prl =>
        obtain ⟨dL, p2, s2⟩ := prl
        rw [hloop] at heq
        simp only [Option.some.injEq, Prod.mk.injEq] at heq
        obtain ⟨hst2, hrid2⟩ := heq
        obtain ⟨hread, hple, hptot, hmono, hchar, hne⟩ :=
          insertLoop_sound rs _ st.disk st.firstFreePage dL p2 s2 hloop
        obtain ⟨k, hk, _, hkfree⟩ := findFreeAux_spec
          (fun o => diskRead dL p2 o) rs ((PAGE_SIZE / rs).toNat) 0
          (by rw [← rm_find_free_slot, ← hchar]; exact hne)
        rw [← rm_find_free_slot, ← hchar] at hk
        intro o ho1 ho2
        rw [← hst2]
        simp only
        rw [diskRead_writeMeta_other _ _ _ _ _ (by simp; omega),
          diskRead_extendTo]
        rw [diskRead_writeSlot_other _ _ _ _ _ _ _ ?hdisj]
        · rw [hread]
          exact hP o ho1 ho2
        case hdisj =>
          rintro ⟨hpq, hin1, hin2⟩
          have hsl : rid.slot = s2 :=
            slot_disjoint rs rid.slot s2 o (rid.slot * rs + o - s2 * rs) hrs
              ho1 ho2 (by omega) (by omega) (by ring)
          have h1 : diskRead dL p2 (s2 * rs) = 1 := by
            rw [← hpq, ← hsl, hread]
            simpa using hP 0 (le_refl 0) (by omega)
          rw [← hk, h1] at hkfree
          simp [rm_is_occupied] at hkfree
  | del r =>
    simp only [opTouches, beq_eq_false_iff_ne, ne_eq] at htouch
    rw [applyOp, deleteRecord]
    rw [if_neg (by omega)]
    intro o ho1 ho2
    simp only
    rw [diskRead_writeMeta_other _ _ _ _ _ (by simp; omega),
      diskRead_extendTo]
    rw [diskRead_writeByte_other _ _ _ _ _ _ ?hd]
    · rw [diskRead_extendTo]
      exact hP o ho1 ho2
    case hd =>
      rintro ⟨hpq, hby⟩
      have hsl : rid.slot = r.slot :=
        slot_disjoint rs rid.slot r.slot o 0 hrs ho1 ho2 (le_refl 0)
          (by omega) (by omega)
      exact htouch (by cases r; cases rid; simp_all)
  | upd r rec2 =>
    simp only [opTouches, beq_eq_false_iff_ne, ne_eq] at htouch
    rw [applyOp, updateRecord]
    rw [if_neg (by omega)]
    intro o ho1 ho2
    simp only
    rw [diskRead_writeSlot_other _ _ _ _ _ _ _ ?hd2]
    · rw [diskRead_extendTo]
      exact hP o ho1 ho2
    case hd2 =>
      rintro ⟨hpq, hin1, hin2⟩
      have hsl : rid.slot = r.slot :=
        slot_disjoint rs rid.slot r.slot o (rid.slot * rs + o - r.slot * rs) hrs
          ho1 ho2 (by omega) (by omega) (by ring)
      exact htouch (by cases r; cases rid; simp_all)

/-- `slotIntact` survives any sequence of mutators that never target the
record id. -/
theorem slotIntact_foldl (rs : Int) (rid : RID) (rcd : Int → Nat)
    (hrs : 1 ≤ rs) (hpage : 1 ≤ rid.page) (hslot : 0 ≤ rid.slot) :
    ∀ (ops : List RMOp) (st : RMState),
      (∀ op ∈ ops, opTouches op rid = false) →
      slotIntact rs rid rcd st →
      slotIntact rs rid rcd (ops.foldl (applyOp rs) st)
  | [], _, _, hP => hP
  | op :: ops, st, hops, hP => by
    rw [List.foldl_cons]
    exact slotIntact_foldl rs rid rcd hrs hpage hslot ops (applyOp rs st op)
      (fun o ho => hops o (List.mem_cons_of_mem op ho))
      (slotIntact_applyOp rs rid rcd op st hrs hpage hslot
        (hops op (List.mem_cons_self op ops)) hP)

/-- `getRecord` on an intact slot succeeds and copies the slot's bytes. -/
theorem getRecord_of_slotIntact (st : RMState) (rs : Int) (rid : RID)
    (rcd : Int → Nat) (out : Record)
    (hrs : 1 ≤ rs) (hP : slotIntact rs rid rcd st) :
    (getRecord st rs rid out).1 = RC_OK ∧
    ∀ o : Int, 1 ≤ o → o < rs → (getRecord st rs rid out).2.data o = rcd o := by
  rw [getRecord]
  rw [if_neg (by omega)]
  have hocc : rm_is_occupied
      (diskRead (extendTo st.disk (rid.page + 1)) rid.page (rid.slot * rs)) = true := by
    rw [diskRead_extendTo]
    have := hP 0 (le_refl 0) (by omega)
    simp only [add_zero] at this
    rw [this]
    rfl
  rw [if_pos hocc]
  refine ⟨rfl, ?_⟩
  intro o ho1 ho2
  simp only
  rw [if_pos ⟨by omega, ho2⟩, diskRead_extendTo]
  have := hP o (by omega) ho2
  rw [if_neg (by omega)] at this
  exact this

/-! ## Claim C2 -/

/-- C2: a record inserted by `insertRecord` and not subsequently deleted or
updated is returned intact by `getRecord`: after the insert and any further
sequence of inserts, deletes and updates none of which targets the new
record's id, `getRecord` at that id succeeds and the returned buffer's
bytes `1 .. recSize - 1` equal the corresponding payload bytes of the
inserted record (only the tombstone byte 0 may differ).  Hypotheses: a sane
record geometry (`1 ≤ recSize ≤ PAGE_SIZE`) and a well-formed
`firstFreePage ≥ 1`, as `createTable` establishes. -/
theorem c2_insert_get_preserves_payload (rs : Int) (st : RMState)
    (rcd : Int → Nat) (ops : List RMOp) (out : Record)
    (hrs : 1 ≤ rs) (hps : rs ≤ PAGE_SIZE) (hffp : 1 ≤ st.firstFreePage)
    (hops : ∀ op ∈ ops, opTouches op (insResult st rs rcd).2 = false) :
    (getRecord (ops.foldl (applyOp rs) (insResult st rs rcd).1) rs
      (insResult st rs rcd).2 out).1 = RC_OK ∧
    ∀ o : Int, 1 ≤ o → o < rs →
      (getRecord (ops.foldl (applyOp rs) (insResult st rs rcd).1) rs
        (insResult st rs rcd).2 out).2.data o = rcd o := by
  obtain ⟨⟨st1, rid⟩, hins⟩ := Option.isSome_iff_exists.mp
    (insertRecord_isSome st rs rcd hrs hps)
  have hres : insResult st rs rcd = (st1, rid) := by rw [insResult, hins]
  rw [hres] at hops ⊢
  obtain ⟨hpage, hslot, hP⟩ := insertRecord_sound st rs rcd st1 rid hrs hffp hins
  exact getRecord_of_slotIntact _ rs rid rcd out hrs
    (slotIntact_foldl rs rid rcd hrs hpage hslot ops st1 hops hP)

/-- C2, witness: insert a record with payload byte 7 into a fresh table
(slot geometry: one 4096-byte slot per page), then delete an unrelated
record id; the inserted record is still read back intact. -/
theorem c2_insert_get_preserves_payload_witness :
    (getRecord ([RMOp.del { page := 5, slot := 0 }].foldl (applyOp 4096)
      (insResult rmSt0 4096 rec7).1) 4096 (insResult rmSt0 4096 rec7).2
      outRec0).1 = RC_OK ∧
    ∀ o : Int, 1 ≤ o → o < 4096 →
      (getRecord ([RMOp.del { page := 5, slot := 0 }].foldl (applyOp 4096)
        (insResult rmSt0 4096 rec7).1) 4096 (insResult rmSt0 4096 rec7).2
        outRec0).2.data o = rec7 o :=
  c2_insert_get_preserves_payload 4096 rmSt0 rec7
    [RMOp.del { page := 5, slot := 0 }] outRec0 (by decide) (by decide)
    (by decide) (by decide)

/-! ## Helper lemmas: scans -/

theorem ridLt_trans {a b c : RID} (h1 : ridLt a b) (h2 : ridLt b c) :
    ridLt a c := by
  rcases h1 with h1 | ⟨h1, h1s⟩ <;> rcases h2 with h2 | ⟨h2, h2s⟩ <;>
    unfold ridLt <;> omega

/-- One cursor advancement moves strictly forward in `(page, slot)` order. -/
theorem ridLt_advanceCursor (c : RID) (spp : Int) :
    ridLt c (advanceCursor c spp) := by
  unfold advanceCursor ridLt
  by_cases h1 : spp ≤ c.slot + 1 <;> by_cases h2 : c.page + 1 ≤ 0 <;>
    by_cases h3 : c.page ≤ 0 <;> simp [h1, h2, h3] <;> omega

/-- Advancement never decreases the page. -/
theorem advanceCursor_page_le (c : RID) (spp : Int) :
    c.page ≤ (advanceCursor c spp).page := by
  unfold advanceCursor
  by_cases h1 : spp ≤ c.slot + 1 <;> by_cases h2 : c.page + 1 ≤ 0 <;>
    by_cases h3 : c.page ≤ 0 <;> simp [h1, h2, h3] <;> omega

/-- The loop of `next` runs at most `fuel` iterations. -/
theorem nextLoop_steps_le (recSize : Int) (pred : Pred) (ffp : Int) :
    ∀ (d : Disk) (out : Record) (c : RID) (fuel : Nat),
      (nextLoop recSize pred ffp d out c fuel).steps ≤ fuel
  | _, _, _, 0 => by simp [nextLoop]
  | d, out, c, fuel + 1 => by
    rw [nextLoop]
    simp only
    split
    · simp
    · split
      · exact Nat.succ_le_succ (nextLoop_steps_le recSize pred ffp _ _ _ fuel)
      · split
        · simp
        · split
          · simp
          · exact Nat.succ_le_succ (nextLoop_steps_le recSize pred ffp _ _ _ fuel)

/-- What a successful `nextLoop` guarantees: the final cursor is strictly
past the starting cursor, the output record's id is the final cursor, that
slot's tombstone is occupied (in the table image — the loop's own pins only
zero-extend, which changes no page), and the predicate evaluated on the
returned record succeeded with a boolean `true`. -/
theorem nextLoop_ok_spec (recSize : Int) (pred : Pred) (ffp : Int) :
    ∀ (d : Disk) (out : Record) (c : RID) (fuel : Nat),
      (nextLoop recSize pred ffp d out c fuel).rc = RC_OK →
      ridLt c (nextLoop recSize pred ffp d out c fuel).cursor ∧
      (nextLoop recSize pred ffp d out c fuel).out.id =
        (nextLoop recSize pred ffp d out c fuel).cursor ∧
      rm_is_occupied (diskRead d
        (nextLoop recSize pred ffp d out c fuel).cursor.page
        ((nextLoop recSize pred ffp d out c fuel).cursor.slot * recSize)) = true ∧
      (pred (nextLoop recSize pred ffp d out c fuel).out).1 = RC_OK ∧
      (pred (nextLoop recSize pred ffp d out c fuel).out).2.dt = DT_BOOL ∧
      (pred (nextLoop recSize pred ffp d out c fuel).out).2.boolV = true
  | _, _, _, 0 => by simp [nextLoop]
  | d, out, c, fuel + 1 => by
    rw [nextLoop]
    simp only
    split
    · simp
    · split
      · intro h
        simp only at h
        obtain ⟨ih1, ih2, ih3, ih4, ih5, ih6⟩ :=
          nextLoop_ok_spec recSize pred ffp _ _ _ fuel h
        rw [diskRead_extendTo] at ih3
        exact ⟨ridLt_trans (ridLt_advanceCursor c (PAGE_SIZE / recSize)) ih1,
          ih2, ih3, ih4, ih5, ih6⟩
      · split
        · next hpred =>
            intro h
            simp only at h
            exact absurd h hpred
        · split
          · next hocc hpred hmatch =>
              intro _
              have hocc2 := not_not.mp hocc
              rw [diskRead_extendTo] at hocc2
              have hpred2 := not_ne_iff.mp hpred
              simp only [Bool.and_eq_true, beq_iff_eq] at hmatch
              refine ⟨ridLt_advanceCursor c (PAGE_SIZE / recSize), rfl, hocc2,
                ?_, ?_, ?_⟩
              · simpa using hpred2
              · simpa using hmatch.1
              · simpa using hmatch.2
          · intro h
            simp only at h
            obtain ⟨ih1, ih2, ih3, ih4, ih5, ih6⟩ :=
              nextLoop_ok_spec recSize pred ffp _ _ _ fuel h
            rw [diskRead_extendTo] at ih3
            exact ⟨ridLt_trans (ridLt_advanceCursor c (PAGE_SIZE / recSize)) ih1,
              ih2, ih3, ih4, ih5, ih6⟩

/-- Every record yielded by a run of successful `next` calls sits strictly
past the cursor the run started from, is live, and satisfied the
predicate. -/
theorem scanOuts_mem (d : Disk) (rs : Int) (pred : Pred) (ffp : Int) :
    ∀ (n : Nat) (c : RID) (out : Record) (r : Record),
      r ∈ scanOuts d rs pred ffp c out n →
      ridLt c r.id ∧
      rm_is_occupied (diskRead d r.id.page (r.id.slot * rs)) = true ∧
      (pred r).1 = RC_OK ∧ (pred r).2.dt = DT_BOOL ∧
      (pred r).2.boolV = true
  | 0, _, _, r, h => by simp [scanOuts] at h
  | n + 1, c, out, r, h => by
    rw [scanOuts] at h
    by_cases hrc : (next d rs pred { cursor := c, firstFreePage := ffp } out).rc
        = RC_OK
    · rw [if_pos hrc] at h
      by_cases hrs : rs ≤ 0
      · rw [next, if_pos hrs] at hrc
        exact absurd hrc (by simp)
      · have hnext : next d rs pred { cursor := c, firstFreePage := ffp } out =
            nextLoop rs pred ffp d out c
              (((ffp + 2) * (PAGE_SIZE / rs) + 2).toNat) := by
          rw [next, if_neg hrs]
        rw [hnext] at h hrc
        obtain ⟨s1, s2, s3, s4, s5, s6⟩ := nextLoop_ok_spec rs pred ffp d out c _ hrc
        rcases List.mem_cons.mp h with hr | hr
        · subst hr
          rw [s2]
          exact ⟨s1, s3, s4, s5, s6⟩
        · obtain ⟨t1, t2, t3, t4, t5⟩ := scanOuts_mem d rs pred ffp n _ _ r hr
          exact ⟨ridLt_trans s1 t1, t2, t3, t4, t5⟩
    · rw [if_neg hrc] at h
      exact absurd h (by simp)

/-- The ids yielded by a run of successful `next` calls are pairwise
strictly ascending. -/
theorem scanOuts_pairwise (d : Disk) (rs : Int) (pred : Pred) (ffp : Int) :
    ∀ (n : Nat) (c : RID) (out : Record),
      ((scanOuts d rs pred ffp c out n).map (·.id)).Pairwise ridLt
  | 0, _, _ => by simp [scanOuts]
  | n + 1, c, out => by
    rw [scanOuts]
    by_cases hrc : (next d rs pred { cursor := c, firstFreePage := ffp } out).rc
        = RC_OK
    · rw [if_pos hrc]
      simp only [List.map_cons, List.pairwise_cons]
      constructor
      · intro b hb
        obtain ⟨rb, hrb, hrbid⟩ := List.mem_map.mp hb
        obtain ⟨t1, t2, t3, t4, t5⟩ := scanOuts_mem d rs pred ffp n _ _ rb hrb
        by_cases hrs : rs ≤ 0
        · rw [next, if_pos hrs] at hrc
          exact absurd hrc (by simp)
        · have hnext : next d rs pred { cursor := c, firstFreePage := ffp } out =
              nextLoop rs pred ffp d out c
                (((ffp + 2) * (PAGE_SIZE / rs) + 2).toNat) := by
            rw [next, if_neg hrs]
          rw [hnext] at hrc t1 ⊢
          obtain ⟨s1, s2, s3, s4, s5, s6⟩ :=
            nextLoop_ok_spec rs pred ffp d out c _ hrc
          rw [s2, ← hrbid] at *
          exact t1
      · exact scanOuts_pairwise d rs pred ffp n _ _
    · rw [if_neg hrc]
      simp

/-- Sanity check on a concrete table image: scanning the two-page table
holding exactly one record (page 1, slot 0) with a predicate that accepts
everything yields precisely that record id. -/
theorem scanOuts_one_record :
    ((scanOuts diskOneRec 4096 predTrue 1 { page := 1, slot := -1 } outRec0 2).map
      (·.id)) = [{ page := 1, slot := 0 }] := by decide

/-! ## Claim C6 -/

/-- C6: every sequence of successful `next` calls yields only records that
are live (tombstone occupied) in the table image and on which the predicate
evaluated to `RC_OK` with a `DT_BOOL` value equal to `true`; and the
yielded record ids are pairwise strictly ascending in `(page, slot)` order
— in particular no record id is returned twice. -/
theorem c6_scan_sound (d : Disk) (rs : Int) (pred : Pred) (ffp : Int)
    (c0 : RID) (out : Record) (n : Nat) :
    (∀ r ∈ scanOuts d rs pred ffp c0 out n,
      rm_is_occupied (diskRead d r.id.page (r.id.slot * rs)) = true ∧
      (pred r).1 = RC_OK ∧ (pred r).2.dt = DT_BOOL ∧
      (pred r).2.boolV = true) ∧
    ((scanOuts d rs pred ffp c0 out n).map (·.id)).Pairwise ridLt :=
  ⟨fun r hr => (scanOuts_mem d rs pred ffp n c0 out r hr).2,
   scanOuts_pairwise d rs pred ffp n c0 out⟩

/-- C6, witness: the statement applied to the concrete one-record table and
the always-true predicate, over two `next` calls from a fresh scan cursor. -/
theorem c6_scan_sound_witness :
    (∀ r ∈ scanOuts diskOneRec 4096 predTrue 1 { page := 1, slot := -1 }
        outRec0 2,
      rm_is_occupied (diskRead diskOneRec r.id.page (r.id.slot * 4096)) = true ∧
      (predTrue r).1 = RC_OK ∧ (predTrue r).2.dt = DT_BOOL ∧
      (predTrue r).2.boolV = true) ∧
    ((scanOuts diskOneRec 4096 predTrue 1 { page := 1, slot := -1 } outRec0 2).map
      (·.id)).Pairwise ridLt :=
  c6_scan_sound diskOneRec 4096 predTrue 1 { page := 1, slot := -1 } outRec0 2

/-! ## Claim C7 -/

/-- C7: `next` terminates (it is a total function of the safety-counter
fuel); it performs at most `(firstFreePage + 2) * slotsPerPage + 2` cursor
steps; and as soon as the cursor's page exceeds `firstFreePage + 1` it
returns `RC_RM_NO_MORE_TUPLES` — when called with the cursor already past
that bound (and a positive record size) it does so within one step. -/
theorem c7_next_terminates (d : Disk) (rs : Int) (pred : Pred)
    (s : ScanState) (out : Record) :
    (next d rs pred s out).steps ≤
      ((s.firstFreePage + 2) * (PAGE_SIZE / rs) + 2).toNat ∧
    (s.firstFreePage + 1 < s.cursor.page → 1 ≤ rs →
      (next d rs pred s out).rc = RC_RM_NO_MORE_TUPLES ∧
      (next d rs pred s out).steps ≤ 1) := by
  constructor
  · rw [next]
    by_cases hrs : rs ≤ 0
    · simp [hrs]
    · rw [if_neg hrs]
      exact nextLoop_steps_le rs pred s.firstFreePage d out s.cursor _
  · intro hpast hrs
    rw [next, if_neg (by omega)]
    cases hfuel : ((s.firstFreePage + 2) * (PAGE_SIZE / rs) + 2).toNat with
    | zero => simp [nextLoop]
    | succ m =>
      rw [nextLoop]
      simp only
      have hpage : s.firstFreePage + 1 <
          (advanceCursor s.cursor (PAGE_SIZE / rs)).page :=
        lt_of_lt_of_le hpast (advanceCursor_page_le s.cursor (PAGE_SIZE / rs))
      rw [if_pos hpage]
      exact ⟨rfl, Nat.le_refl 1⟩

/-- C7, witness: the statement applied to the one-record table with the
scan cursor already past `firstFreePage + 1`. -/
theorem c7_next_terminates_witness :
    (next diskOneRec 4096 predTrue
      { cursor := { page := 9, slot := 0 }, firstFreePage := 1 } outRec0).steps ≤
      (((1 : Int) + 2) * (PAGE_SIZE / 4096) + 2).toNat ∧
    ((1 : Int) + 1 < (9 : Int) → (1 : Int) ≤ 4096 →
      (next diskOneRec 4096 predTrue
        { cursor := { page := 9, slot := 0 }, firstFreePage := 1 } outRec0).rc =
        RC_RM_NO_MORE_TUPLES ∧
      (next diskOneRec 4096 predTrue
        { cursor := { page := 9, slot := 0 }, firstFreePage := 1 }
        outRec0).steps ≤ 1) :=
  c7_next_terminates diskOneRec 4096 predTrue
    { cursor := { page := 9, slot := 0 }, firstFreePage := 1 } outRec0

/-! ## Claim C8 -/

/-- C8: after a successful `deleteRecord rid`, a `getRecord` at the same
rid (with no intervening operation) returns `RC_RM_NO_TUPLE_WITH_GIVEN_RID`
and leaves the caller's output record untouched, because the slot's
tombstone byte has been cleared.  Hypotheses: a positive record size and a
heap record id (`rid.page ≥ 1`; page 0 holds metadata, whose persistence
writes would otherwise alias low slot bytes). -/
theorem c8_delete_then_get (st : RMState) (rs : Int) (rid : RID)
    (out : Record) (hrs : 1 ≤ rs) (hpage : 1 ≤ rid.page) :
    (deleteRecord st rs rid).1 = RC_OK ∧
    (getRecord (deleteRecord st rs rid).2 rs rid out).1 =
      RC_RM_NO_TUPLE_WITH_GIVEN_RID ∧
    (getRecord (deleteRecord st rs rid).2 rs rid out).2 = out := by
  simp only [deleteRecord, if_neg (show ¬ rs ≤ 0 by omega)]
  refine ⟨trivial, ?_⟩
  have hfree : rm_is_occupied (diskRead
      (extendTo (writeMeta
        (extendTo (writeByte (extendTo st.disk (rid.page + 1)) rid.page
          (rid.slot * rs) 0) 1)
        (if 0 < st.tupleCount then st.tupleCount - 1 else st.tupleCount) rid.page)
        (rid.page + 1))
      rid.page (rid.slot * rs)) = false := by
    rw [diskRead_extendTo, diskRead_writeMeta_other _ _ _ _ _ (by simp; omega),
      diskRead_extendTo,
      diskRead_writeByte_hit _ _ _ _
        (by have := extendTo_le st.disk (rid.page + 1)
            omega)]
    rfl
  simp only [getRecord, if_neg (show ¬ rs ≤ 0 by omega)]
  rw [if_neg (by simp [hfree])]
  exact ⟨rfl, rfl⟩

/-- C8, witness: delete record (1, 0) from a fresh table state, then read
it back. -/
theorem c8_delete_then_get_witness :
    (deleteRecord rmSt0 1 { page := 1, slot := 0 }).1 = RC_OK ∧
    (getRecord (deleteRecord rmSt0 1 { page := 1, slot := 0 }).2 1
      { page := 1, slot := 0 } outRec0).1 = RC_RM_NO_TUPLE_WITH_GIVEN_RID ∧
    (getRecord (deleteRecord rmSt0 1 { page := 1, slot := 0 }).2 1
      { page := 1, slot := 0 } outRec0).2 = outRec0 :=
  c8_delete_then_get rmSt0 1 { page := 1, slot := 0 } outRec0 (by decide)
    (by decide)

/-! ## Claim C10 -/

/-- C10: `deleteRecord` never checks the tombstone: for a rid whose slot is
already free it still returns `RC_OK`, still decrements `tupleCount`
(exactly when it is positive), and still sets `firstFreePage := rid.page`;
hence deleting the same rid twice from a state with `tupleCount ≥ 2`
decrements `tupleCount` twice. -/
theorem c10_delete_unchecked (st : RMState) (rs : Int) (rid : RID)
    (hrs : 1 ≤ rs)
    (hfree : rm_is_occupied (diskRead st.disk rid.page (rid.slot * rs)) = false) :
    (deleteRecord st rs rid).1 = RC_OK ∧
    (deleteRecord st rs rid).2.tupleCount =
      (if 0 < st.tupleCount then st.tupleCount - 1 else st.tupleCount) ∧
    (deleteRecord st rs rid).2.firstFreePage = rid.page ∧
    (2 ≤ st.tupleCount →
      (deleteRecord (deleteRecord st rs rid).2 rs rid).2.tupleCount =
        st.tupleCount - 2) := by
  simp only [deleteRecord, if_neg (show ¬ rs ≤ 0 by omega)]
  refine ⟨trivial, trivial, trivial, ?_⟩
  intro h2
  split_ifs <;> omega

/-- C10, witness: deleting the never-occupied rid (2, 0) twice from a
state with `tupleCount = 5` ends with `tupleCount = 3`. -/
theorem c10_delete_unchecked_witness :
    (deleteRecord rmSt5 1 { page := 2, slot := 0 }).1 = RC_OK ∧
    (deleteRecord rmSt5 1 { page := 2, slot := 0 }).2.tupleCount =
      (if 0 < rmSt5.tupleCount then rmSt5.tupleCount - 1 else rmSt5.tupleCount) ∧
    (deleteRecord rmSt5 1 { page := 2, slot := 0 }).2.firstFreePage = 2 ∧
    (2 ≤ rmSt5.tupleCount →
      (deleteRecord (deleteRecord rmSt5 1 { page := 2, slot := 0 }).2 1
        { page := 2, slot := 0 }).2.tupleCount = rmSt5.tupleCount - 2) :=
  c10_delete_unchecked rmSt5 1 { page := 2, slot := 0 } (by decide) (by decide)

end CS525
